import Mathlib

/-
Verification of the check-orchestration engine of lokalise-glossary-guard.

The development shallowly embeds the Go sources:
  * namespace checks  : internal/checks/checks.go (registry: Status, Result,
    Check, Register, Sorted) plus the registry split operation used by the
    data-based validator;
  * namespace VData   : the data-based validator (Validate(data, path, langs),
    safeRun, tally); the concurrent normal-check phase is embedded as one
    linearization (list order) followed by the stable sort the code performs;
  * namespace VPath   : the path-based validator (Validate(filePath),
    ValidateFilePath, safeRun); the file system is abstracted to the outcomes
    of os.Stat / os.Open the code branches on;
  * namespace validate : cmd/validate/validate.go (fileOutcome,
    aggregateReturnCode, withFixedPostfix); paths are lists of characters.

Go strings are modelled by String (statuses, names, messages) or List Char
(paths, where suffix surgery is performed); byte buffers by List Nat; a check
evaluation that can panic returns a RunOutcome sum type, as suggested by the
design notes of the specification.
-/

set_option maxHeartbeats 1000000

namespace checks

/-- Go: type Status string; the three declared constants are PASS, FAIL, ERROR. -/
abbrev Status := String

def Pass : Status := "PASS"

def Fail : Status := "FAIL"

def Error : Status := "ERROR"

/-- Go: Result of one check run: name, status, message. -/
structure Result where
  Name : String
  Status : String
  Message : String
deriving DecidableEq

/-- A check evaluation either returns a Result or aborts (panics) with a value. -/
inductive RunOutcome where
  | ok (r : Result)
  | panicked (msg : String)

/-- Go: the Check interface: Name(), FailFast(), Priority(), Run.  The run
signature differs between the two validator generations, so it is a type
parameter. -/
structure Check (ρ : Type) where
  Name : String
  FailFast : Bool
  Priority : Int
  Run : ρ

/-- Go (internal/checks/checks.go, lines 33-35): Register appends to the global
slice All; `All = append(All, c)`. -/
def Register {ρ : Type} (all : List (Check ρ)) (c : Check ρ) : List (Check ρ) :=
  all ++ [c]

/-- The ordering used by sort.SliceStable in Sorted(): priority ascending,
then name ascending. -/
def checkBefore {ρ : Type} (a b : Check ρ) : Prop :=
  a.Priority < b.Priority ∨ (a.Priority = b.Priority ∧ a.Name ≤ b.Name)

instance {ρ : Type} : DecidableRel (@checkBefore ρ) := fun a b => by
  unfold checkBefore; exact inferInstance

/-- Go: Sorted() copies All and stable-sorts it by (priority, name). -/
def Sorted {ρ : Type} (all : List (Check ρ)) : List (Check ρ) :=
  List.insertionSort checkBefore all

/-- Modelled from the spec: the function checks.Split used by the data-based
validator is absent from the sources (only its tests and callers are present).
Spec 4.1: split() partitions the set into critical (fail-fast = true) and
normal (fail-fast = false) subsets, each independently sorted by (priority
ascending, name ascending). -/
def Split {ρ : Type} (all : List (Check ρ)) :
    List (Check ρ) × List (Check ρ) :=
  (List.insertionSort checkBefore (all.filter (fun c => c.FailFast)),
   List.insertionSort checkBefore (all.filter (fun c => !c.FailFast)))

end checks

/-- Go error values returned by the validators: the sentinel
ErrValidationFailed, or an ad-hoc error built with fmt.Errorf. -/
inductive GoError where
  | validationFailed
  | other (msg : String)
deriving DecidableEq

/-- Go: validator.Summary (identical field set in both validator
generations). -/
structure Summary where
  FilePath : String
  Pass : Nat
  Fail : Nat
  Error : Nat
  Results : List checks.Result
  EarlyExit : Bool
  EarlyCheck : String
  EarlyStatus : checks.Status
deriving DecidableEq

namespace VData

/-- A data-based check evaluates (data, path, langs). -/
abbrev Check := checks.Check (List Nat → String → List String → checks.RunOutcome)

/-- Go safeRun (data-based validator): recovers a panic into an Error result
carrying a diagnostic message, and fills in the check name when the result
left it empty.  The stack dump appended by debug.Stack() is elided. -/
def safeRun (c : Check) (data : List Nat) (path : String) (langs : List String) :
    checks.Result :=
  match c.Run data path langs with
  | .panicked m => { Name := c.Name, Status := checks.Error, Message := "panic: " ++ m }
  | .ok r => if r.Name = "" then { r with Name := c.Name } else r

/-- Go tally: switch on the result status; PASS, FAIL and ERROR bump their
counters, any other status falls through to the default branch which also
bumps Error. -/
def tally (sum : Summary) (r : checks.Result) : Summary :=
  if r.Status = checks.Pass then { sum with Pass := sum.Pass + 1 }
  else if r.Status = checks.Fail then { sum with Fail := sum.Fail + 1 }
  else if r.Status = checks.Error then { sum with Error := sum.Error + 1 }
  else { sum with Error := sum.Error + 1 }

/-- One step of the collection loops: append the result and tally it. -/
def appendResult (sum : Summary) (r : checks.Result) : Summary :=
  tally { sum with Results := sum.Results ++ [r] } r

/-- The sequential critical phase of Validate: run each critical check in
order; on a non-PASS status set the early-exit fields and stop.  The Bool
reports whether the early return was taken. -/
def runCritical (cs : List Check) (data : List Nat) (path : String)
    (langs : List String) (sum : Summary) : Summary × Bool :=
  match cs with
  | [] => (sum, false)
  | c :: rest =>
    let r := safeRun c data path langs
    let sum1 := appendResult sum r
    if r.Status ≠ checks.Pass then
      ({ sum1 with EarlyExit := true, EarlyCheck := c.Name, EarlyStatus := r.Status }, true)
    else
      runCritical rest data path langs sum1

/-- The ordering used by sort.SliceStable on the normal slice of Results:
name ascending, then status ascending. -/
def resultBefore (a b : checks.Result) : Prop :=
  a.Name < b.Name ∨ (a.Name = b.Name ∧ a.Status ≤ b.Status)

instance : DecidableRel resultBefore := fun a b => by
  unfold resultBefore; exact inferInstance

/-- The initial Summary built by Validate before the loops. -/
def initSummary (path : String) : Summary :=
  { FilePath := path, Pass := 0, Fail := 0, Error := 0, Results := [],
    EarlyExit := false, EarlyCheck := "", EarlyStatus := "" }

/-- The concurrent normal phase of Validate, embedded with list order as the
linearization of the goroutine results: collect and tally every normal
check's result, then stable-sort the normal slice of Results by (name,
status); finally decide the error from the Fail/Error counters. -/
def normalPhase (normStart : Nat) (normalChecks : List Check) (data : List Nat)
    (path : String) (langs : List String) (sum : Summary) :
    Summary × Option GoError :=
  let normResults := normalChecks.map (fun c => safeRun c data path langs)
  let sum1 := normResults.foldl appendResult sum
  let sum2 := { sum1 with
    Results := sum1.Results.take normStart
      ++ List.insertionSort resultBefore (sum1.Results.drop normStart) }
  if sum2.Fail > 0 ∨ sum2.Error > 0 then (sum2, some GoError.validationFailed)
  else (sum2, none)

/-- Go Validate(data, filePath, langs): split the registry, return an empty
Summary on an empty registry, run the critical phase (early-exiting with
ErrValidationFailed), then the normal phase. -/
def Validate (all : List Check) (data : List Nat) (path : String)
    (langs : List String) : Summary × Option GoError :=
  let pair := checks.Split all
  if pair.1.length + pair.2.length = 0 then
    ({ FilePath := path, Pass := 0, Fail := 0, Error := 0, Results := [],
       EarlyExit := false, EarlyCheck := "", EarlyStatus := "" }, none)
  else
    match runCritical pair.1 data path langs (initSummary path) with
    | (sum, true) => (sum, some GoError.validationFailed)
    | (sum, false) => normalPhase pair.1.length pair.2 data path langs sum

/-- The checks whose evaluation the critical phase actually performs, read off
the same control flow as runCritical. -/
def evaluatedCritical (cs : List Check) (data : List Nat) (path : String)
    (langs : List String) : List Check × Bool :=
  match cs with
  | [] => ([], false)
  | c :: rest =>
    if (safeRun c data path langs).Status ≠ checks.Pass then ([c], true)
    else
      let pr := evaluatedCritical rest data path langs
      (c :: pr.1, pr.2)

/-- The checks whose evaluation Validate performs, in evaluation order. -/
def evaluatedChecks (all : List Check) (data : List Nat) (path : String)
    (langs : List String) : List Check :=
  let pair := checks.Split all
  if pair.1.length + pair.2.length = 0 then []
  else
    let ev := evaluatedCritical pair.1 data path langs
    if ev.2 then ev.1 else ev.1 ++ pair.2

/-- Status predicate: counted as Pass by tally. -/
def pPass (r : checks.Result) : Bool := decide (r.Status = checks.Pass)

/-- Status predicate: counted as Fail by tally. -/
def pFail (r : checks.Result) : Bool := decide (r.Status = checks.Fail)

/-- Status predicate: counted as Error by tally (the ERROR branch and the
fail-closed default branch together). -/
def pErr (r : checks.Result) : Bool :=
  decide (r.Status ≠ checks.Pass ∧ r.Status ≠ checks.Fail)

/-- The tally invariant: each counter equals the number of recorded Results
its tally branch accepts. -/
def countsOk (sum : Summary) : Prop :=
  sum.Pass = sum.Results.countP pPass ∧
  sum.Fail = sum.Results.countP pFail ∧
  sum.Error = sum.Results.countP pErr

end VData

namespace VPath

/-- Outcome of os.Stat as branched on by ValidateFilePath. -/
inductive StatRes where
  | ok (isDir : Bool)
  | notExist
  | permission
  | otherErr
deriving DecidableEq

/-- Outcome of os.Open as branched on by ValidateFilePath. -/
inductive OpenRes where
  | ok
  | permission
  | otherErr
deriving DecidableEq

/-- The file-system facts ValidateFilePath consults. -/
structure FS where
  stat : String → StatRes
  openFile : String → OpenRes

/-- A path-based check evaluates a file path. -/
abbrev Check := checks.Check (String → checks.RunOutcome)

/-- Go safeRun (path-based validator): a recovered panic leaves the named
result zero-valued except for Status and Message. -/
def safeRun (c : Check) (filePath : String) : checks.Result :=
  match c.Run filePath with
  | .ok r => r
  | .panicked m =>
    { Name := "", Status := checks.Error, Message := "check panicked: " ++ m }

/-- Go ValidateFilePath: reject empty paths, stat failures, directories and
unopenable files with distinct fmt.Errorf errors; none of them is the
ErrValidationFailed sentinel. -/
def ValidateFilePath (fs : FS) (fp : String) : Option String :=
  if fp = "" then some "file path is required"
  else
    match fs.stat fp with
    | .notExist => some ("file not found: " ++ fp)
    | .permission => some ("permission denied: " ++ fp)
    | .otherErr => some "file not accessible"
    | .ok isDir =>
      if isDir then some ("path points to a directory: " ++ fp)
      else
        match fs.openFile fp with
        | .permission => some ("permission denied: " ++ fp)
        | .otherErr => some "file is not readable"
        | .ok => none

/-- The check loop of the path-based Validate: sequential, switch on status;
Fail/Error/unknown statuses bump their counter and early-exit when the check
is fail-fast; after the loop the counters decide the error. -/
def loop (cs : List Check) (fp : String) (sum : Summary) :
    Summary × Option GoError :=
  match cs with
  | [] =>
    if sum.Fail > 0 ∨ sum.Error > 0 then (sum, some GoError.validationFailed)
    else (sum, none)
  | c :: rest =>
    let res := safeRun c fp
    let s1 := { sum with Results := sum.Results ++ [res] }
    if res.Status = checks.Pass then
      loop rest fp { s1 with Pass := s1.Pass + 1 }
    else if res.Status = checks.Fail then
      let s2 := { s1 with Fail := s1.Fail + 1 }
      if c.FailFast then
        ({ s2 with
            EarlyExit := true
            EarlyCheck := c.Name
            EarlyStatus := res.Status }, some GoError.validationFailed)
      else loop rest fp s2
    else if res.Status = checks.Error then
      let s2 := { s1 with Error := s1.Error + 1 }
      if c.FailFast then
        ({ s2 with
            EarlyExit := true
            EarlyCheck := c.Name
            EarlyStatus := res.Status }, some GoError.validationFailed)
      else loop rest fp s2
    else
      let s2 := { s1 with Error := s1.Error + 1 }
      if c.FailFast then
        ({ s2 with
            EarlyExit := true
            EarlyCheck := c.Name
            EarlyStatus := res.Status }, some GoError.validationFailed)
      else loop rest fp s2

/-- The zero value Summary literal returned on a path pre-check failure. -/
def zeroSummary : Summary :=
  { FilePath := "", Pass := 0, Fail := 0, Error := 0, Results := [],
    EarlyExit := false, EarlyCheck := "", EarlyStatus := "" }

/-- Go Validate(filePath): path pre-check, empty-registry short-circuit, then
the sequential loop over Sorted(). -/
def Validate (fs : FS) (all : List Check) (filePath : String) :
    Summary × Option GoError :=
  match ValidateFilePath fs filePath with
  | some msg => (zeroSummary, some (GoError.other msg))
  | none =>
    let ordered := checks.Sorted all
    if ordered.length = 0 then
      ({ FilePath := filePath, Pass := 0, Fail := 0, Error := 0, Results := [],
         EarlyExit := false, EarlyCheck := "", EarlyStatus := "" }, none)
    else
      loop ordered filePath (VData.initSummary filePath)

/-- The checks the path-based loop actually evaluates. -/
def loopEvaluated (cs : List Check) (fp : String) : List Check :=
  match cs with
  | [] => []
  | c :: rest =>
    if (safeRun c fp).Status = checks.Pass then c :: loopEvaluated rest fp
    else if c.FailFast then [c]
    else c :: loopEvaluated rest fp

/-- The checks whose evaluation the path-based Validate performs. -/
def evaluatedChecks (fs : FS) (all : List Check) (filePath : String) :
    List Check :=
  match ValidateFilePath fs filePath with
  | some _ => []
  | none =>
    let ordered := checks.Sorted all
    if ordered.length = 0 then [] else loopEvaluated ordered filePath

end VPath

namespace validate

/-- Go: per-file outcome record assembled by runOneFile. -/
structure fileOutcome where
  Idx : Int
  Path : String
  Output : String
  Passed : Nat
  Warned : Nat
  Failed : Nat
  Errored : Nat
  HadOpErr : Bool
  HadValFail : Bool
deriving DecidableEq

/-- Go aggregateReturnCode: OR the two flags across all outcomes; an operation
error wins over a validation failure; otherwise nil. -/
def aggregateReturnCode (outcomes : List fileOutcome) : Option GoError :=
  let flags := outcomes.foldl
    (fun acc oc => (acc.1 || oc.HadOpErr, acc.2 || oc.HadValFail)) (false, false)
  if flags.1 then
    some (GoError.other "one or more files could not be validated due to an error")
  else if flags.2 then some GoError.validationFailed
  else none

/-- The fixed-file marker appended by withFixedPostfix; the characters of the
Go literal. -/
def fixedMarker : List Char := ['_', 'f', 'i', 'x', 'e', 'd']

/-- Scan of filepath.Ext over the reversed path: stop at a path separator,
succeed at the first dot; the returned list is the reversed extension
(dot last). -/
def revExt : List Char → Option (List Char)
  | [] => none
  | c :: r =>
    if c = '/' then none
    else if c = '.' then some [c]
    else (revExt r).map (fun e => c :: e)

/-- Go filepath.Ext: the suffix starting at the final dot of the final path
element, empty when there is none. -/
def filepathExt (p : List Char) : List Char :=
  match revExt p.reverse with
  | some e => e.reverse
  | none => []

/-- Go strings.HasSuffix. -/
def hasSuffix (s suf : List Char) : Bool :=
  suf.reverse.isPrefixOf s.reverse

/-- Go strings.TrimSuffix. -/
def trimSuffix (s suf : List Char) : List Char :=
  if hasSuffix s suf then (s.reverse.drop suf.length).reverse else s

/-- Go withFixedPostfix: split off the extension, and append the fixed-file
marker to the base name unless it already carries it. -/
def withFixedPostfix (p : List Char) : List Char :=
  let ext := filepathExt p
  let base := trimSuffix p ext
  if hasSuffix base fixedMarker then base ++ ext
  else base ++ fixedMarker ++ ext

end validate

/-- Demo check for the duplicate-registration experiment: first registration
of the name "dup". -/
def dupA : VPath.Check :=
  { Name := "dup", FailFast := false, Priority := 10,
    Run := fun _ => checks.RunOutcome.ok { Name := "dup", Status := checks.Pass, Message := "" } }

/-- Demo check for the duplicate-registration experiment: second registration
of the name "dup" with a different definition. -/
def dupB : VPath.Check :=
  { Name := "dup", FailFast := true, Priority := 99,
    Run := fun _ => checks.RunOutcome.ok { Name := "dup", Status := checks.Fail, Message := "" } }

/-- Demo registry with a single fail-fast check that fails. -/
def cCritFail : VData.Check :=
  { Name := "crit-fail", FailFast := true, Priority := 1,
    Run := fun _ _ _ => checks.RunOutcome.ok { Name := "crit-fail", Status := checks.Fail, Message := "boom" } }

/-- Demo non-fail-fast check that passes. -/
def cNormPass : VData.Check :=
  { Name := "norm-pass", FailFast := false, Priority := 2,
    Run := fun _ _ _ => checks.RunOutcome.ok { Name := "norm-pass", Status := checks.Pass, Message := "ok" } }

/-- Demo registry for the strict-prefix counterexample: one fail-fast check
that fails; it is the last (and only) registered check. -/
def demoReg2 : List VData.Check := [cCritFail]

/-- Demo registry for the fail-fast scenario: one fail-fast check returning
Fail followed by one non-fail-fast check that would return Pass. -/
def demoReg3 : List VData.Check := [cCritFail, cNormPass]

/-- Demo registry whose only check passes. -/
def demoReg4 : List VData.Check := [cNormPass]

/-- Demo check whose evaluation panics. -/
def cPanic : VData.Check :=
  { Name := "boom-check", FailFast := false, Priority := 5,
    Run := fun _ _ _ => checks.RunOutcome.panicked "boom" }

/-- Demo registry containing only the panicking check. -/
def demoReg5 : List VData.Check := [cPanic]

/-- Demo file system on which every path is missing. -/
def demoFS : VPath.FS :=
  { stat := fun _ => VPath.StatRes.notExist, openFile := fun _ => VPath.OpenRes.ok }

/-- Demo per-file outcome with a validation failure. -/
def demoOutcome : validate.fileOutcome :=
  { Idx := 0, Path := "a.csv", Output := "", Passed := 0, Warned := 0,
    Failed := 1, Errored := 0, HadOpErr := false, HadValFail := true }

/-- C1: evaluation of the registry code at the failing input.  Registering a
second check under an already-registered name appends instead of replacing:
both the raw registry and its Sorted() view then contain two entries named
"dup" (the package's own test TestRegisterAndReplaceByName requires one). -/
theorem c1_register_appends_duplicate :
    checks.Register (checks.Register ([] : List VPath.Check) dupA) dupB = [dupA, dupB] ∧
    (checks.Register (checks.Register ([] : List VPath.Check) dupA) dupB).countP
      (fun c => c.Name == "dup") = 2 ∧
    (checks.Sorted (checks.Register (checks.Register ([] : List VPath.Check) dupA) dupB)).countP
      (fun c => c.Name == "dup") = 2 := by
  refine ⟨rfl, rfl, rfl⟩

/-- C8: on an empty registry the data-based Validate returns a Summary with
FilePath set, no Results, zero counts, no early exit, and a nil error. -/
theorem c8_empty_registry (d : List Nat) (p : String) (l : List String) :
    VData.Validate [] d p l =
      ({ FilePath := p, Pass := 0, Fail := 0, Error := 0, Results := [],
         EarlyExit := false, EarlyCheck := "", EarlyStatus := "" }, none) := rfl

theorem aggregate_foldl_flags (outcomes : List validate.fileOutcome) (a b : Bool) :
    outcomes.foldl (fun acc oc => (acc.1 || oc.HadOpErr, acc.2 || oc.HadValFail)) (a, b)
      = (a || outcomes.any (fun oc => oc.HadOpErr),
         b || outcomes.any (fun oc => oc.HadValFail)) := by
  induction outcomes generalizing a b with
  | nil => simp
  | cons oc rest ih => simp [List.foldl_cons, ih, Bool.or_assoc]

/-- C7: the process-level verdict computed by aggregateReturnCode is a
failure (a non-nil error) exactly when some file outcome has its
operation-error flag set or some file outcome has its validation-failure
flag set; otherwise it is nil. -/
theorem c7_aggregate_verdict (outcomes : List validate.fileOutcome) :
    (validate.aggregateReturnCode outcomes).isSome = true ↔
      (∃ oc ∈ outcomes, oc.HadOpErr = true) ∨ (∃ oc ∈ outcomes, oc.HadValFail = true) := by
  unfold validate.aggregateReturnCode
  rw [aggregate_foldl_flags]
  simp only [Bool.false_or]
  split_ifs with h1 h2 <;>
    simp_all [List.any_eq_true]

/-- C7 witness: a single outcome with the validation-failure flag produces a
failure verdict. -/
theorem c7_witness : (validate.aggregateReturnCode [demoOutcome]).isSome = true :=
  (c7_aggregate_verdict [demoOutcome]).mpr (Or.inr ⟨demoOutcome, by simp, rfl⟩)

theorem revExt_clean_append (cs t : List Char) (h : ∀ c ∈ cs, c ≠ '/' ∧ c ≠ '.') :
    validate.revExt (cs ++ t) = (validate.revExt t).map (fun e => cs ++ e) := by
  induction cs with
  | nil =>
    simp only [List.nil_append]
    cases validate.revExt t <;> simp
  | cons c cs ih =>
    obtain ⟨h1, h2⟩ := h c (List.mem_cons_self c cs)
    have ih2 := ih (fun x hx => h x (List.mem_cons_of_mem c hx))
    simp only [List.cons_append, validate.revExt, h1, h2, if_false, List.append_eq]
    rw [ih2]
    cases validate.revExt t <;> simp

theorem revExt_some_shape (r e : List Char) (h : validate.revExt r = some e) :
    (∃ rest, r = e ++ rest) ∧ ∃ cs, e = cs ++ ['.'] ∧ ∀ c ∈ cs, c ≠ '/' ∧ c ≠ '.' := by
  induction r generalizing e with
  | nil => simp [validate.revExt] at h
  | cons c r ih =>
    by_cases h1 : c = '/'
    · simp [validate.revExt, h1] at h
    · by_cases h2 : c = '.'
      · subst h2
        simp [validate.revExt] at h
        subst h
        exact ⟨⟨r, rfl⟩, [], rfl, by simp⟩
      · simp only [validate.revExt, h1, h2, if_false] at h
        cases hr : validate.revExt r with
        | none => rw [hr] at h; simp at h
        | some e' =>
          rw [hr] at h
          simp only [Option.map_some', Option.some.injEq] at h
          obtain ⟨⟨rest, hrest⟩, cs, hcs, hclean⟩ := ih e' hr
          refine ⟨⟨rest, ?_⟩, c :: cs, ?_, ?_⟩
          · rw [← h]
            simp [hrest]
          · rw [← h, hcs]
            rfl
          · intro x hx
            rcases List.mem_cons.mp hx with hx | hx
            · subst hx; exact ⟨h1, h2⟩
            · exact hclean x hx

theorem isPrefixOf_append_self (l t : List Char) : l.isPrefixOf (l ++ t) = true := by
  rw [List.isPrefixOf_iff_prefix]
  exact List.prefix_append l t

theorem hasSuffix_nil (s : List Char) : validate.hasSuffix s [] = true := by
  simp [validate.hasSuffix, List.isPrefixOf_iff_prefix]

theorem trimSuffix_nil (s : List Char) : validate.trimSuffix s [] = s := by
  simp [validate.trimSuffix, hasSuffix_nil]

theorem fixedMarker_rev_clean :
    ∀ c ∈ validate.fixedMarker.reverse, c ≠ '/' ∧ c ≠ '.' := by decide

/-- C9: the derived-filename transform withFixedPostfix is idempotent on every
path: applying it twice yields the same result as applying it once, and a
base name already carrying the fixed-file marker is not suffixed again. -/
theorem c9_withFixedPostfix_idempotent (p : List Char) :
    validate.withFixedPostfix ( validate.withFixedPostfix p) = validate.withFixedPostfix p := by
  cases h : validate.revExt p.reverse with
  | none =>
    have hext : validate.filepathExt p = [] := by simp [validate.filepathExt, h]
    by_cases hfix : validate.hasSuffix p validate.fixedMarker = true
    · have hp : validate.withFixedPostfix p = p := by
        simp [ validate.withFixedPostfix, hext, trimSuffix_nil, hfix]
      rw [hp]; exact hp
    · have hq : validate.withFixedPostfix p = p ++ validate.fixedMarker := by
        simp [ validate.withFixedPostfix, hext, trimSuffix_nil, hfix]
      rw [hq]
      have h2 : validate.revExt (validate.fixedMarker.reverse ++ p.reverse) = none := by
        rw [revExt_clean_append _ _ fixedMarker_rev_clean, h]
        rfl
      have hext2 : validate.filepathExt (p ++ validate.fixedMarker) = [] := by
        simp [validate.filepathExt, List.reverse_append, h2]
      have hfix2 : validate.hasSuffix (p ++ validate.fixedMarker) validate.fixedMarker = true := by
        simp only [validate.hasSuffix, List.reverse_append]
        exact isPrefixOf_append_self _ _
      simp only [ validate.withFixedPostfix]
      rw [hext2, trimSuffix_nil, hfix2]
      simp
  | some e =>
    obtain ⟨⟨rest, hr⟩, cs, hcs, hclean⟩ := revExt_some_shape _ _ h
    have hext : validate.filepathExt p = e.reverse := by simp [validate.filepathExt, h]
    have hsuf : validate.hasSuffix p e.reverse = true := by
      simp only [validate.hasSuffix, List.reverse_reverse, hr]
      exact isPrefixOf_append_self e rest
    have hbase : validate.trimSuffix p e.reverse = rest.reverse := by
      simp [validate.trimSuffix, hsuf, hr, List.drop_left]
    by_cases hfix : validate.hasSuffix rest.reverse validate.fixedMarker = true
    · have hp : validate.withFixedPostfix p = p := by
        simp only [ validate.withFixedPostfix, hext, hbase, hfix, if_true]
        have hpp : p = (e ++ rest).reverse := by rw [← hr, List.reverse_reverse]
        rw [hpp, List.reverse_append]
      rw [hp]; exact hp
    · have hq : validate.withFixedPostfix p
          = rest.reverse ++ validate.fixedMarker ++ e.reverse := by
        simp [ validate.withFixedPostfix, hext, hbase, hfix]
      rw [hq]
      have hrev : (rest.reverse ++ validate.fixedMarker ++ e.reverse).reverse
          = e ++ (validate.fixedMarker.reverse ++ rest) := by
        simp [List.reverse_append, List.append_assoc]
      have h2 : validate.revExt (e ++ (validate.fixedMarker.reverse ++ rest)) = some e := by
        rw [hcs, List.append_assoc, revExt_clean_append cs _ hclean]
        simp [validate.revExt]
      have hext2 : validate.filepathExt
          (rest.reverse ++ validate.fixedMarker ++ e.reverse) = e.reverse := by
        simp [validate.filepathExt, List.reverse_append, List.reverse_reverse,
          List.append_assoc, h2]
      have hsuf2 : validate.hasSuffix
          (rest.reverse ++ validate.fixedMarker ++ e.reverse) e.reverse = true := by
        simp only [validate.hasSuffix, List.reverse_reverse, hrev]
        exact isPrefixOf_append_self e _
      have hbase2 : validate.trimSuffix
          (rest.reverse ++ validate.fixedMarker ++ e.reverse) e.reverse
          = rest.reverse ++ validate.fixedMarker := by
        simp only [validate.trimSuffix, hsuf2, if_true, hrev, List.length_reverse,
          List.drop_left, List.reverse_append, List.reverse_reverse]
      have hfix2 : validate.hasSuffix
          (rest.reverse ++ validate.fixedMarker) validate.fixedMarker = true := by
        simp only [validate.hasSuffix, List.reverse_append]
        exact isPrefixOf_append_self _ _
      simp only [ validate.withFixedPostfix]
      rw [hext2, hbase2, hfix2]
      simp

theorem tally_preserves (sum : Summary) (r : checks.Result) :
    (VData.tally sum r).Results = sum.Results ∧
    (VData.tally sum r).EarlyExit = sum.EarlyExit ∧
    (VData.tally sum r).EarlyCheck = sum.EarlyCheck ∧
    (VData.tally sum r).EarlyStatus = sum.EarlyStatus ∧
    (VData.tally sum r).FilePath = sum.FilePath := by
  unfold VData.tally
  split_ifs <;> exact ⟨rfl, rfl, rfl, rfl, rfl⟩

theorem appendResult_Results (sum : Summary) (r : checks.Result) :
    (VData.appendResult sum r).Results = sum.Results ++ [r] := by
  unfold VData.appendResult
  rw [(tally_preserves _ _).1]

theorem appendResult_EarlyExit (sum : Summary) (r : checks.Result) :
    (VData.appendResult sum r).EarlyExit = sum.EarlyExit := by
  unfold VData.appendResult
  rw [(tally_preserves _ _).2.1]

theorem foldl_appendResult_Results (rs : List checks.Result) :
    ∀ sum : Summary, (rs.foldl VData.appendResult sum).Results = sum.Results ++ rs := by
  induction rs with
  | nil => intro sum; simp
  | cons r rs ih =>
    intro sum
    simp [List.foldl_cons, ih, appendResult_Results]

theorem foldl_appendResult_EarlyExit (rs : List checks.Result) :
    ∀ sum : Summary, (rs.foldl VData.appendResult sum).EarlyExit = sum.EarlyExit := by
  induction rs with
  | nil => intro sum; rfl
  | cons r rs ih =>
    intro sum
    simp [List.foldl_cons, ih, appendResult_EarlyExit]

theorem runCritical_shape (d : List Nat) (p : String) (l : List String) :
    ∀ (cs : List VData.Check) (sum : Summary),
      ((VData.runCritical cs d p l sum).2 = true →
        ∃ k, 1 ≤ k ∧ k ≤ cs.length ∧
          (VData.runCritical cs d p l sum).1.Results
            = sum.Results ++ (cs.take k).map (fun c => VData.safeRun c d p l) ∧
          ∃ r, r ∈ (VData.runCritical cs d p l sum).1.Results ∧ r.Status ≠ checks.Pass) ∧
      ((VData.runCritical cs d p l sum).2 = false →
        (VData.runCritical cs d p l sum).1.Results
          = sum.Results ++ cs.map (fun c => VData.safeRun c d p l) ∧
        (VData.runCritical cs d p l sum).1.EarlyExit = sum.EarlyExit) := by
  intro cs
  induction cs with
  | nil =>
    intro sum
    constructor
    · intro h; simp [VData.runCritical] at h
    · intro _; simp [VData.runCritical]
  | cons c rest ih =>
    intro sum
    by_cases hst : (VData.safeRun c d p l).Status = checks.Pass
    · have hrun : VData.runCritical (c :: rest) d p l sum
          = VData.runCritical rest d p l (VData.appendResult sum (VData.safeRun c d p l)) := by
        simp [VData.runCritical, hst]
      constructor
      · intro h
        rw [hrun] at h ⊢
        obtain ⟨k, hk1, hk2, hres, hr⟩ := (ih _).1 h
        refine ⟨k + 1, by omega, by simp; omega, ?_, hr⟩
        rw [hres, appendResult_Results]
        simp
      · intro h
        rw [hrun] at h ⊢
        obtain ⟨hres, hee⟩ := (ih _).2 h
        constructor
        · rw [hres, appendResult_Results]; simp
        · rw [hee, appendResult_EarlyExit]
    · have hrun : VData.runCritical (c :: rest) d p l sum
          = ({ VData.appendResult sum (VData.safeRun c d p l) with
               EarlyExit := true
               EarlyCheck := c.Name
               EarlyStatus := (VData.safeRun c d p l).Status }, true) := by
        simp [VData.runCritical, hst]
      constructor
      · intro _
        refine ⟨1, le_refl 1, by simp, ?_, ?_⟩
        · rw [hrun]
          show (VData.appendResult sum (VData.safeRun c d p l)).Results = _
          rw [appendResult_Results]
          simp
        · refine ⟨VData.safeRun c d p l, ?_, hst⟩
          rw [hrun]
          show VData.safeRun c d p l ∈ (VData.appendResult sum (VData.safeRun c d p l)).Results
          rw [appendResult_Results]
          simp
      · intro h
        rw [hrun] at h
        simp at h

theorem normalPhase_EarlyExit (n : Nat) (ncs : List VData.Check) (d : List Nat)
    (p : String) (l : List String) (sum : Summary) :
    (VData.normalPhase n ncs d p l sum).1.EarlyExit = sum.EarlyExit := by
  unfold VData.normalPhase
  dsimp only
  split_ifs <;> simp [foldl_appendResult_EarlyExit]

theorem normalPhase_Results (n : Nat) (ncs : List VData.Check) (d : List Nat)
    (p : String) (l : List String) (sum : Summary) :
    (VData.normalPhase n ncs d p l sum).1.Results
      = (sum.Results ++ ncs.map (fun c => VData.safeRun c d p l)).take n
        ++ List.insertionSort VData.resultBefore
            ((sum.Results ++ ncs.map (fun c => VData.safeRun c d p l)).drop n) := by
  unfold VData.normalPhase
  dsimp only
  split_ifs <;> simp [foldl_appendResult_Results]

/-- C2 counterexample: on a registry whose single check is fail-fast and
fails, Validate reports EarlyExit = true while the Results list has as many
elements as there are registered checks — not strictly fewer, and not a
strict prefix of the ordered check set. -/
theorem c2_counterexample :
    (VData.Validate demoReg2 [] "f.csv" []).1.EarlyExit = true ∧
    ¬ ((VData.Validate demoReg2 [] "f.csv" []).1.Results.length < demoReg2.length) := by
  decide

/-- C2 amended: EarlyExit = true implies the Results list is a non-empty
prefix (not necessarily strict) of the full ordered check set, each entry
being the evaluation of the corresponding check. -/
theorem c2_amended (all : List VData.Check) (d : List Nat) (p : String)
    (l : List String) (h : (VData.Validate all d p l).1.EarlyExit = true) :
    ∃ k, 1 ≤ k ∧ k ≤ ((checks.Split all).1 ++ (checks.Split all).2).length ∧
      (VData.Validate all d p l).1.Results
        = (((checks.Split all).1 ++ (checks.Split all).2).take k).map
            (fun c => VData.safeRun c d p l) := by
  by_cases htot : (checks.Split all).1.length + (checks.Split all).2.length = 0
  · exfalso
    have : VData.Validate all d p l
        = ({ FilePath := p, Pass := 0, Fail := 0, Error := 0, Results := [],
             EarlyExit := false, EarlyCheck := "", EarlyStatus := "" }, none) := by
      unfold VData.Validate
      simp [htot]
    rw [this] at h
    simp at h
  · cases hrc : VData.runCritical (checks.Split all).1 d p l (VData.initSummary p) with
    | mk sum' b =>
      cases b with
      | true =>
        have hval : VData.Validate all d p l = (sum', some GoError.validationFailed) := by
          unfold VData.Validate
          simp [htot, hrc]
        obtain ⟨k, hk1, hk2, hres, _⟩ :=
          (runCritical_shape d p l (checks.Split all).1 (VData.initSummary p)).1
            (by rw [hrc])
        rw [hrc] at hres
        have hres2 : sum'.Results
            = (VData.initSummary p).Results
              ++ ((checks.Split all).1.take k).map (fun c => VData.safeRun c d p l) := hres
        refine ⟨k, hk1, ?_, ?_⟩
        · simp only [List.length_append]
          omega
        · rw [hval]
          show sum'.Results = _
          rw [hres2]
          simp [VData.initSummary, List.take_append_of_le_length hk2]
      | false =>
        exfalso
        have hval : VData.Validate all d p l
            = VData.normalPhase (checks.Split all).1.length (checks.Split all).2 d p l sum' := by
          unfold VData.Validate
          simp [htot, hrc]
        have hfalse := (runCritical_shape d p l (checks.Split all).1 (VData.initSummary p)).2
          (by rw [hrc])
        rw [hrc] at hfalse
        have hee : sum'.EarlyExit = (VData.initSummary p).EarlyExit := hfalse.2
        rw [hval, normalPhase_EarlyExit, hee] at h
        simp [VData.initSummary] at h

/-- C2 amended witness: the single fail-fast failing check yields a
length-one prefix. -/
theorem c2_amended_witness :
    ∃ k, 1 ≤ k ∧ k ≤ ((checks.Split demoReg2).1 ++ (checks.Split demoReg2).2).length ∧
      (VData.Validate demoReg2 [] "f.csv" []).1.Results
        = (((checks.Split demoReg2).1 ++ (checks.Split demoReg2).2).take k).map
            (fun c => VData.safeRun c [] "f.csv" []) :=
  c2_amended demoReg2 [] "f.csv" [] (by decide)

theorem runCritical_first_fail (d : List Nat) (p : String) (l : List String) :
    ∀ (cs : List VData.Check) (i : Nat) (hi : i < cs.length),
      (∀ j, (hj : j < i) →
        (VData.safeRun (cs.get ⟨j, Nat.lt_trans hj hi⟩) d p l).Status = checks.Pass) →
      (VData.safeRun (cs.get ⟨i, hi⟩) d p l).Status ≠ checks.Pass →
      ∀ sum : Summary, ∃ sum',
        VData.runCritical cs d p l sum = (sum', true) ∧
        sum'.EarlyExit = true ∧
        sum'.EarlyCheck = (cs.get ⟨i, hi⟩).Name ∧
        sum'.EarlyStatus = (VData.safeRun (cs.get ⟨i, hi⟩) d p l).Status ∧
        sum'.Results = sum.Results ++ (cs.take (i+1)).map (fun c => VData.safeRun c d p l) := by
  intro cs
  induction cs with
  | nil =>
    intro i hi
    exact absurd hi (by simp)
  | cons c rest ih =>
    intro i hi hb hf sum
    cases i with
    | zero =>
      have hst : (VData.safeRun c d p l).Status ≠ checks.Pass := hf
      refine ⟨{ VData.appendResult sum (VData.safeRun c d p l) with
                EarlyExit := true
                EarlyCheck := c.Name
                EarlyStatus := (VData.safeRun c d p l).Status }, ?_, rfl, rfl, rfl, ?_⟩
      · simp [VData.runCritical, hst]
      · show (VData.appendResult sum (VData.safeRun c d p l)).Results = _
        rw [appendResult_Results]
        simp
    | succ i =>
      have h0 : (VData.safeRun c d p l).Status = checks.Pass := hb 0 (Nat.succ_pos i)
      have hi2 : i < rest.length := Nat.lt_of_succ_lt_succ hi
      have hb2 : ∀ j, (hj : j < i) →
          (VData.safeRun (rest.get ⟨j, Nat.lt_trans hj hi2⟩) d p l).Status = checks.Pass :=
        fun j hj => hb (j+1) (Nat.succ_lt_succ hj)
      have hf2 : (VData.safeRun (rest.get ⟨i, hi2⟩) d p l).Status ≠ checks.Pass := hf
      obtain ⟨sum', heq, he1, he2, he3, he4⟩ :=
        ih i hi2 hb2 hf2 (VData.appendResult sum (VData.safeRun c d p l))
      refine ⟨sum', ?_, he1, he2, he3, ?_⟩
      · rw [show VData.runCritical (c :: rest) d p l sum
            = VData.runCritical rest d p l (VData.appendResult sum (VData.safeRun c d p l)) from
            by simp [VData.runCritical, h0]]
        exact heq
      · rw [he4, appendResult_Results]
        simp

theorem evaluatedCritical_first_fail (d : List Nat) (p : String) (l : List String) :
    ∀ (cs : List VData.Check) (i : Nat) (hi : i < cs.length),
      (∀ j, (hj : j < i) →
        (VData.safeRun (cs.get ⟨j, Nat.lt_trans hj hi⟩) d p l).Status = checks.Pass) →
      (VData.safeRun (cs.get ⟨i, hi⟩) d p l).Status ≠ checks.Pass →
      VData.evaluatedCritical cs d p l = (cs.take (i+1), true) := by
  intro cs
  induction cs with
  | nil =>
    intro i hi
    exact absurd hi (by simp)
  | cons c rest ih =>
    intro i hi hb hf
    cases i with
    | zero =>
      have hst : (VData.safeRun c d p l).Status ≠ checks.Pass := hf
      simp [VData.evaluatedCritical, hst]
    | succ i =>
      have h0 : (VData.safeRun c d p l).Status = checks.Pass := hb 0 (Nat.succ_pos i)
      have hi2 : i < rest.length := Nat.lt_of_succ_lt_succ hi
      have hb2 : ∀ j, (hj : j < i) →
          (VData.safeRun (rest.get ⟨j, Nat.lt_trans hj hi2⟩) d p l).Status = checks.Pass :=
        fun j hj => hb (j+1) (Nat.succ_lt_succ hj)
      have hf2 : (VData.safeRun (rest.get ⟨i, hi2⟩) d p l).Status ≠ checks.Pass := hf
      simp [VData.evaluatedCritical, h0, ih i hi2 hb2 hf2]

/-- C3: when the first non-passing critical (fail-fast) check is at position i
of the critical order, Validate reports EarlyExit = true, records that
check's name and status in EarlyCheck/EarlyStatus, its Result is the last
element of Results (which consists exactly of the first i+1 critical
evaluations), and no further check is evaluated. -/
theorem c3_failfast_stops (all : List VData.Check) (d : List Nat) (p : String)
    (l : List String) (i : Nat) (hi : i < (checks.Split all).1.length)
    (hb : ∀ j, (hj : j < i) →
      (VData.safeRun ((checks.Split all).1.get ⟨j, Nat.lt_trans hj hi⟩) d p l).Status
        = checks.Pass)
    (hf : (VData.safeRun ((checks.Split all).1.get ⟨i, hi⟩) d p l).Status ≠ checks.Pass) :
    (VData.Validate all d p l).1.EarlyExit = true ∧
    (VData.Validate all d p l).1.EarlyCheck = ((checks.Split all).1.get ⟨i, hi⟩).Name ∧
    (VData.Validate all d p l).1.EarlyStatus
      = (VData.safeRun ((checks.Split all).1.get ⟨i, hi⟩) d p l).Status ∧
    (VData.Validate all d p l).1.Results
      = ((checks.Split all).1.take (i+1)).map (fun c => VData.safeRun c d p l) ∧
    (VData.Validate all d p l).1.Results.getLast?
      = some (VData.safeRun ((checks.Split all).1.get ⟨i, hi⟩) d p l) ∧
    VData.evaluatedChecks all d p l = (checks.Split all).1.take (i+1) := by
  obtain ⟨sum', heq, he1, he2, he3, he4⟩ :=
    runCritical_first_fail d p l (checks.Split all).1 i hi hb hf (VData.initSummary p)
  have htot : ¬((checks.Split all).1.length + (checks.Split all).2.length = 0) := by
    have h0 : 0 < (checks.Split all).1.length := Nat.lt_of_le_of_lt (Nat.zero_le i) hi
    omega
  have hval : VData.Validate all d p l = (sum', some GoError.validationFailed) := by
    unfold VData.Validate
    simp [htot, heq]
  have hres : sum'.Results
      = ((checks.Split all).1.take (i+1)).map (fun c => VData.safeRun c d p l) := by
    rw [he4]
    simp [VData.initSummary]
  have hlast : sum'.Results.getLast?
      = some (VData.safeRun ((checks.Split all).1.get ⟨i, hi⟩) d p l) := by
    rw [hres, ← List.take_concat_get _ i hi]
    simp only [List.concat_eq_append, List.map_append, List.map_cons, List.map_nil,
      List.getLast?_concat]
    rw [List.get_eq_getElem]
  have hev : VData.evaluatedChecks all d p l = (checks.Split all).1.take (i+1) := by
    unfold VData.evaluatedChecks
    have he := evaluatedCritical_first_fail d p l (checks.Split all).1 i hi hb hf
    simp [htot, he]
  rw [hval]
  exact ⟨he1, he2, he3, hres, hlast, hev⟩

/-- C3 witness: a fail-fast check returning Fail followed by a non-fail-fast
check that would return Pass yields a Summary with exactly one Result and
only the first check evaluated. -/
theorem c3_witness :
    (VData.Validate demoReg3 [] "f.csv" []).1.EarlyExit = true ∧
    (VData.Validate demoReg3 [] "f.csv" []).1.Results.length = 1 ∧
    (VData.Validate demoReg3 [] "f.csv" []).1.EarlyCheck = "crit-fail" ∧
    VData.evaluatedChecks demoReg3 [] "f.csv" [] = (checks.Split demoReg3).1.take 1 := by
  have h := c3_failfast_stops demoReg3 [] "f.csv" [] 0 (by decide)
    (fun j hj => absurd hj (Nat.not_lt_zero j)) (by decide)
  refine ⟨h.1, ?_, ?_, h.2.2.2.2.2⟩
  · rw [h.2.2.2.1]
    decide
  · rw [h.2.1]
    decide

theorem countP_append_singleton (q : checks.Result → Bool) (A : List checks.Result)
    (r : checks.Result) :
    (A ++ [r]).countP q = A.countP q + (if q r then 1 else 0) := by
  simp [List.countP_append, List.countP_cons]

theorem tally_counts (sum : Summary) (r : checks.Result) :
    (VData.tally sum r).Pass = sum.Pass + (if VData.pPass r then 1 else 0) ∧
    (VData.tally sum r).Fail = sum.Fail + (if VData.pFail r then 1 else 0) ∧
    (VData.tally sum r).Error = sum.Error + (if VData.pErr r then 1 else 0) := by
  unfold VData.tally VData.pPass VData.pFail VData.pErr
  split_ifs with h1 h2 h3 <;> simp_all [checks.Pass, checks.Fail, checks.Error]

theorem appendResult_countsOk (sum : Summary) (r : checks.Result)
    (h : VData.countsOk sum) : VData.countsOk (VData.appendResult sum r) := by
  obtain ⟨h1, h2, h3⟩ := h
  have t := tally_counts { sum with Results := sum.Results ++ [r] } r
  have hres := (tally_preserves { sum with Results := sum.Results ++ [r] } r).1
  unfold VData.appendResult
  refine ⟨?_, ?_, ?_⟩
  · rw [t.1, hres]
    show sum.Pass + _ = (sum.Results ++ [r]).countP VData.pPass
    rw [countP_append_singleton, h1]
  · rw [t.2.1, hres]
    show sum.Fail + _ = (sum.Results ++ [r]).countP VData.pFail
    rw [countP_append_singleton, h2]
  · rw [t.2.2, hres]
    show sum.Error + _ = (sum.Results ++ [r]).countP VData.pErr
    rw [countP_append_singleton, h3]

theorem runCritical_countsOk (d : List Nat) (p : String) (l : List String) :
    ∀ (cs : List VData.Check) (sum : Summary), VData.countsOk sum →
      VData.countsOk (VData.runCritical cs d p l sum).1 := by
  intro cs
  induction cs with
  | nil =>
    intro sum h
    simpa [VData.runCritical] using h
  | cons c rest ih =>
    intro sum h
    by_cases hst : (VData.safeRun c d p l).Status = checks.Pass
    · rw [show VData.runCritical (c :: rest) d p l sum
          = VData.runCritical rest d p l (VData.appendResult sum (VData.safeRun c d p l)) from
          by simp [VData.runCritical, hst]]
      exact ih _ (appendResult_countsOk _ _ h)
    · rw [show VData.runCritical (c :: rest) d p l sum
          = ({ VData.appendResult sum (VData.safeRun c d p l) with
               EarlyExit := true
               EarlyCheck := c.Name
               EarlyStatus := (VData.safeRun c d p l).Status }, true) from
          by simp [VData.runCritical, hst]]
      exact appendResult_countsOk sum (VData.safeRun c d p l) h

theorem foldl_appendResult_countsOk (rs : List checks.Result) :
    ∀ sum : Summary, VData.countsOk sum →
      VData.countsOk (rs.foldl VData.appendResult sum) := by
  induction rs with
  | nil => intro sum h; exact h
  | cons r rs ih =>
    intro sum h
    exact ih _ (appendResult_countsOk _ _ h)

theorem final_sort_countsOk (n : Nat) (sum1 : Summary) (h : VData.countsOk sum1) :
    VData.countsOk { sum1 with
      Results := sum1.Results.take n
        ++ List.insertionSort VData.resultBefore (sum1.Results.drop n) } := by
  have p1 : (List.insertionSort VData.resultBefore (sum1.Results.drop n)).Perm
      (sum1.Results.drop n) := List.perm_insertionSort _ _
  have p2 := List.Perm.append_left (sum1.Results.take n) p1
  have p3 : sum1.Results.take n ++ sum1.Results.drop n = sum1.Results :=
    List.take_append_drop n sum1.Results
  rw [p3] at p2
  obtain ⟨h1, h2, h3⟩ := h
  exact ⟨by rw [h1, List.Perm.countP_eq _ p2],
         by rw [h2, List.Perm.countP_eq _ p2],
         by rw [h3, List.Perm.countP_eq _ p2]⟩

theorem validate_countsOk (all : List VData.Check) (d : List Nat) (p : String)
    (l : List String) : VData.countsOk (VData.Validate all d p l).1 := by
  by_cases htot : (checks.Split all).1.length + (checks.Split all).2.length = 0
  · rw [show VData.Validate all d p l
        = ({ FilePath := p, Pass := 0, Fail := 0, Error := 0, Results := [],
             EarlyExit := false, EarlyCheck := "", EarlyStatus := "" }, none) from
        by unfold VData.Validate; simp [htot]]
    exact ⟨rfl, rfl, rfl⟩
  · cases hrc : VData.runCritical (checks.Split all).1 d p l (VData.initSummary p) with
    | mk sum' b =>
      have hc : VData.countsOk sum' := by
        have := runCritical_countsOk d p l (checks.Split all).1 (VData.initSummary p)
          ⟨rfl, rfl, rfl⟩
        rw [hrc] at this
        exact this
      cases b with
      | true =>
        rw [show VData.Validate all d p l = (sum', some GoError.validationFailed) from
          by unfold VData.Validate; simp [htot, hrc]]
        exact hc
      | false =>
        rw [show VData.Validate all d p l
            = VData.normalPhase (checks.Split all).1.length (checks.Split all).2 d p l sum' from
          by unfold VData.Validate; simp [htot, hrc]]
        unfold VData.normalPhase
        dsimp only
        split_ifs
        · exact final_sort_countsOk _ _
            (foldl_appendResult_countsOk _ _ hc)
        · exact final_sort_countsOk _ _
            (foldl_appendResult_countsOk _ _ hc)

theorem countP_partition (rs : List checks.Result) :
    rs.countP VData.pPass + rs.countP VData.pFail + rs.countP VData.pErr = rs.length := by
  induction rs with
  | nil => rfl
  | cons r rs ih =>
    simp only [List.countP_cons, List.length_cons]
    by_cases hp : r.Status = checks.Pass
    · simp [VData.pPass, VData.pFail, VData.pErr, hp, checks.Pass, checks.Fail]
      omega
    · by_cases hf : r.Status = checks.Fail
      · simp [VData.pPass, VData.pFail, VData.pErr, hp, hf, checks.Pass, checks.Fail]
        omega
      · simp [VData.pPass, VData.pFail, VData.pErr, hp, hf]
        omega

/-- C6: in every Summary returned by the data-based Validate the tally is
total and fails closed: Pass counts exactly the PASS results, Fail exactly
the FAIL results, Error counts every result that is neither PASS nor FAIL
(ERROR and unknown statuses alike), and the three counters sum to the number
of Results. -/
theorem c6_tally_total (all : List VData.Check) (d : List Nat) (p : String)
    (l : List String) :
    (VData.Validate all d p l).1.Pass
      = (VData.Validate all d p l).1.Results.countP VData.pPass ∧
    (VData.Validate all d p l).1.Fail
      = (VData.Validate all d p l).1.Results.countP VData.pFail ∧
    (VData.Validate all d p l).1.Error
      = (VData.Validate all d p l).1.Results.countP VData.pErr ∧
    (VData.Validate all d p l).1.Pass + (VData.Validate all d p l).1.Fail
        + (VData.Validate all d p l).1.Error
      = (VData.Validate all d p l).1.Results.length := by
  obtain ⟨h1, h2, h3⟩ := validate_countsOk all d p l
  refine ⟨h1, h2, h3, ?_⟩
  rw [h1, h2, h3, countP_partition]

theorem validate_err_shape (all : List VData.Check) (d : List Nat) (p : String)
    (l : List String) :
    (VData.Validate all d p l).2 = none ∨
    (VData.Validate all d p l).2 = some GoError.validationFailed := by
  by_cases htot : (checks.Split all).1.length + (checks.Split all).2.length = 0
  · left
    unfold VData.Validate
    simp [htot]
  · cases hrc : VData.runCritical (checks.Split all).1 d p l (VData.initSummary p) with
    | mk sum' b =>
      cases b with
      | true =>
        right
        unfold VData.Validate
        simp [htot, hrc]
      | false =>
        rw [show VData.Validate all d p l
            = VData.normalPhase (checks.Split all).1.length (checks.Split all).2 d p l sum' from
          by unfold VData.Validate; simp [htot, hrc]]
        unfold VData.normalPhase
        dsimp only
        split_ifs
        · right; rfl
        · left; rfl

/-- C4: the data-based Validate returns ErrValidationFailed exactly when the
Summary records Fail > 0 or Error > 0, and returns a nil error whenever every
recorded Result has status PASS. -/
theorem c4_error_iff_counts (all : List VData.Check) (d : List Nat) (p : String)
    (l : List String) :
    ((VData.Validate all d p l).2 = some GoError.validationFailed ↔
      (VData.Validate all d p l).1.Fail > 0 ∨ (VData.Validate all d p l).1.Error > 0) ∧
    ((∀ r ∈ (VData.Validate all d p l).1.Results, r.Status = checks.Pass) →
      (VData.Validate all d p l).2 = none) := by
  have hiff : (VData.Validate all d p l).2 = some GoError.validationFailed ↔
      (VData.Validate all d p l).1.Fail > 0 ∨ (VData.Validate all d p l).1.Error > 0 := by
    by_cases htot : (checks.Split all).1.length + (checks.Split all).2.length = 0
    · rw [show VData.Validate all d p l
          = ({ FilePath := p, Pass := 0, Fail := 0, Error := 0, Results := [],
               EarlyExit := false, EarlyCheck := "", EarlyStatus := "" }, none) from
          by unfold VData.Validate; simp [htot]]
      simp
    · have hcOk := validate_countsOk all d p l
      cases hrc : VData.runCritical (checks.Split all).1 d p l (VData.initSummary p) with
      | mk sum' b =>
        cases b with
        | true =>
          have hval : VData.Validate all d p l = (sum', some GoError.validationFailed) := by
            unfold VData.Validate
            simp [htot, hrc]
          rw [hval] at hcOk ⊢
          obtain ⟨k, _, _, _, r, hrmem, hrnp⟩ :=
            (runCritical_shape d p l (checks.Split all).1 (VData.initSummary p)).1
              (by rw [hrc])
          rw [hrc] at hrmem
          have hrmem2 : r ∈ sum'.Results := hrmem
          refine iff_of_true rfl ?_
          by_cases hrf : r.Status = checks.Fail
          · left
            show 0 < (sum', some GoError.validationFailed).1.Fail
            rw [hcOk.2.1]
            exact List.countP_pos_iff.mpr ⟨r, hrmem2, by simp [VData.pFail, hrf]⟩
          · right
            show 0 < (sum', some GoError.validationFailed).1.Error
            rw [hcOk.2.2]
            exact List.countP_pos_iff.mpr ⟨r, hrmem2, by simp [VData.pErr, hrnp, hrf]⟩
        | false =>
          rw [show VData.Validate all d p l
              = VData.normalPhase (checks.Split all).1.length (checks.Split all).2 d p l sum' from
            by unfold VData.Validate; simp [htot, hrc]]
          unfold VData.normalPhase
          dsimp only
          split_ifs with hc
          · exact iff_of_true rfl hc
          · exact iff_of_false (by simp) hc
  refine ⟨hiff, ?_⟩
  intro hall
  have hcOk := validate_countsOk all d p l
  have hFail0 : (VData.Validate all d p l).1.Fail = 0 := by
    rw [hcOk.2.1]
    exact List.countP_eq_zero.mpr
      (fun r hr => by simp [VData.pFail, hall r hr, checks.Pass, checks.Fail])
  have hErr0 : (VData.Validate all d p l).1.Error = 0 := by
    rw [hcOk.2.2]
    exact List.countP_eq_zero.mpr
      (fun r hr => by simp [VData.pErr, hall r hr])
  rcases validate_err_shape all d p l with h | h
  · exact h
  · exfalso
    have := hiff.mp h
    omega

/-- C4 witness: a registry whose single check passes yields a nil error. -/
theorem c4_witness : (VData.Validate demoReg4 [] "f.csv" []).2 = none :=
  (c4_error_iff_counts demoReg4 [] "f.csv" []).2 (by decide)

theorem runCritical_all_pass_false (d : List Nat) (p : String) (l : List String) :
    ∀ (cs : List VData.Check) (sum : Summary),
      (∀ cc ∈ cs, (VData.safeRun cc d p l).Status = checks.Pass) →
      (VData.runCritical cs d p l sum).2 = false := by
  intro cs
  induction cs with
  | nil => intro sum _; rfl
  | cons c rest ih =>
    intro sum h
    have h0 : (VData.safeRun c d p l).Status = checks.Pass := h c (List.mem_cons_self c rest)
    rw [show VData.runCritical (c :: rest) d p l sum
        = VData.runCritical rest d p l (VData.appendResult sum (VData.safeRun c d p l)) from
      by simp [VData.runCritical, h0]]
    exact ih _ (fun cc hcc => h cc (List.mem_cons_of_mem c hcc))

/-- C5: a check whose evaluation panics is contained by safeRun: it is
converted to an Error-status Result named after the check and carrying the
panic diagnostic; and when such a check sits in the normal partition and the
critical phase passes, Validate still returns a Summary whose Results contain
exactly that Error result for it — the batch is not crashed. -/
theorem c5_panic_contained (c : VData.Check) (d : List Nat) (p : String)
    (l : List String) (m : String)
    (hp : c.Run d p l = checks.RunOutcome.panicked m) :
    VData.safeRun c d p l
      = { Name := c.Name, Status := checks.Error, Message := "panic: " ++ m } ∧
    ∀ all : List VData.Check, c ∈ (checks.Split all).2 →
      (∀ cc ∈ (checks.Split all).1, (VData.safeRun cc d p l).Status = checks.Pass) →
      ({ Name := c.Name, Status := checks.Error, Message := "panic: " ++ m } : checks.Result)
        ∈ (VData.Validate all d p l).1.Results := by
  have hsr : VData.safeRun c d p l
      = { Name := c.Name, Status := checks.Error, Message := "panic: " ++ m } := by
    unfold VData.safeRun
    rw [hp]
  refine ⟨hsr, ?_⟩
  intro all hmem hcrit
  have hlen : 0 < (checks.Split all).2.length :=
    List.length_pos.mpr (List.ne_nil_of_mem hmem)
  have htot : ¬((checks.Split all).1.length + (checks.Split all).2.length = 0) := by omega
  cases hrc : VData.runCritical (checks.Split all).1 d p l (VData.initSummary p) with
  | mk sum' b =>
    have hb : b = false := by
      have := runCritical_all_pass_false d p l (checks.Split all).1 (VData.initSummary p) hcrit
      rw [hrc] at this
      exact this
    subst hb
    have hval : VData.Validate all d p l
        = VData.normalPhase (checks.Split all).1.length (checks.Split all).2 d p l sum' := by
      unfold VData.Validate
      simp [htot, hrc]
    have hres : sum'.Results
        = (checks.Split all).1.map (fun cc => VData.safeRun cc d p l) := by
      have hsh := (runCritical_shape d p l (checks.Split all).1 (VData.initSummary p)).2
        (by rw [hrc])
      rw [hrc] at hsh
      have h2 : sum'.Results = (VData.initSummary p).Results
          ++ (checks.Split all).1.map (fun cc => VData.safeRun cc d p l) := hsh.1
      simpa [VData.initSummary] using h2
    rw [hval, normalPhase_Results, hres]
    have hN : ((checks.Split all).1.map (fun cc => VData.safeRun cc d p l)).length
        = (checks.Split all).1.length := List.length_map _ _
    rw [List.drop_left' hN]
    apply List.mem_append_right
    refine (List.Perm.mem_iff (List.perm_insertionSort _ _)).mpr ?_
    rw [← hsr]
    exact List.mem_map_of_mem _ hmem

/-- C5 witness: the panicking demo check's Error result appears in the
Summary of a run over the registry containing it. -/
theorem c5_witness :
    ({ Name := "boom-check", Status := checks.Error, Message := "panic: boom" } : checks.Result)
      ∈ (VData.Validate demoReg5 [] "f.csv" []).1.Results := by
  have h := c5_panic_contained cPanic [] "f.csv" [] "boom" rfl
  have hmem : cPanic ∈ (checks.Split demoReg5).2 := by
    rw [show (checks.Split demoReg5).2 = [cPanic] from rfl]
    exact List.mem_singleton_self cPanic
  have hcrit : ∀ cc ∈ (checks.Split demoReg5).1,
      (VData.safeRun cc [] "f.csv" []).Status = checks.Pass := by
    rw [show (checks.Split demoReg5).1 = [] from rfl]
    intro cc hcc
    exact absurd hcc (List.not_mem_nil cc)
  exact h.2 demoReg5 hmem hcrit

/-- C10: when the file path is empty, refers to a nonexistent file, or refers
to a directory, the path-based Validate returns the zero-valued Summary with
no Results together with a non-nil error distinct from ErrValidationFailed,
and evaluates no check. -/
theorem c10_invalid_path (fs : VPath.FS) (all : List VPath.Check) (fp : String)
    (h : fp = "" ∨ fs.stat fp = VPath.StatRes.notExist ∨ fs.stat fp = VPath.StatRes.ok true) :
    (VPath.Validate fs all fp).1 = VPath.zeroSummary ∧
    (∃ m, (VPath.Validate fs all fp).2 = some (GoError.other m)) ∧
    (VPath.Validate fs all fp).2 ≠ some GoError.validationFailed ∧
    VPath.evaluatedChecks fs all fp = [] := by
  have hv : ∃ m, VPath.ValidateFilePath fs fp = some m := by
    rcases h with h | h | h
    · exact ⟨"file path is required", by simp [VPath.ValidateFilePath, h]⟩
    · by_cases he : fp = ""
      · exact ⟨"file path is required", by simp [VPath.ValidateFilePath, he]⟩
      · exact ⟨"file not found: " ++ fp, by simp [VPath.ValidateFilePath, he, h]⟩
    · by_cases he : fp = ""
      · exact ⟨"file path is required", by simp [VPath.ValidateFilePath, he]⟩
      · exact ⟨"path points to a directory: " ++ fp, by simp [VPath.ValidateFilePath, he, h]⟩
  obtain ⟨m, hm⟩ := hv
  refine ⟨?_, ⟨m, ?_⟩, ?_, ?_⟩
  · unfold VPath.Validate
    rw [hm]
  · unfold VPath.Validate
    rw [hm]
  · unfold VPath.Validate
    rw [hm]
    simp
  · unfold VPath.evaluatedChecks
    rw [hm]

/-- C10 witness: a missing file on the demo file system. -/
theorem c10_witness :
    (VPath.Validate demoFS [] "missing.csv").1 = VPath.zeroSummary ∧
    (∃ m, (VPath.Validate demoFS [] "missing.csv").2 = some (GoError.other m)) ∧
    (VPath.Validate demoFS [] "missing.csv").2 ≠ some GoError.validationFailed ∧
    VPath.evaluatedChecks demoFS [] "missing.csv" = [] :=
  c10_invalid_path demoFS [] "missing.csv" (Or.inr (Or.inl rfl))
